import Mathlib

/-!
Shallow embedding of the notebook
`week_4/visualizing_stationary_functional_v1.ipynb`.

The notebook's numeric code operates on numpy float arrays; here every
float computation is modelled over the real numbers, an array is a
function `ℕ → ℝ` together with its length, and the plotting state of the
two matplotlib axes is an explicit `Display` record.  Fallible code (the
`if/elif` chains of `make_path` that leave `base`/`eta` unassigned on an
unknown tag, raising at the call site) is modelled with `Option`.
-/

open BigOperators Finset

noncomputable section

/-- `delta_x = 0.001` (the Python float literal, modelled as the real 1/1000). -/
def delta_x : ℝ := 0.001

/-- Number of samples produced by `np.arange(start, stop, step)`:
`ceil((stop - start) / step)`, computed here over `ℚ`. -/
def arangeCount (start stop step : ℚ) : ℕ := ⌈(stop - start) / step⌉₊

/-- Length of `x_pts = np.arange(0., 1., delta_x)`. -/
def nPts : ℕ := arangeCount 0 1 (1 / 1000)

/-- The session grid: `x_pts[i] = 0. + i * delta_x`, as produced by
`np.arange(0., 1., delta_x)`. -/
def x_pts (i : ℕ) : ℝ := (i : ℝ) * delta_x

/-- `y_star(x) = np.sinh(x) / np.sinh(1.)`, the reference stationary path. -/
def y_star (x : ℝ) : ℝ := Real.sinh x / Real.sinh 1

/-- Interior-point formula of `np.gradient(f, x)` for one sample:
the second-order scheme numpy applies at interior points, written with
numpy's coefficients `a = -dx2/(dx1*(dx1+dx2))`, `b = (dx2-dx1)/(dx1*dx2)`,
`c = dx1/(dx2*(dx1+dx2))`.  (numpy's uniform-spacing fast path
`(f[i+1]-f[i-1])/(2h)` is the specialization `dx1 = dx2 = h`, proved below
in `gradInterior_central`.) -/
def gradInterior (x0 x1 x2 y0 y1 y2 : ℝ) : ℝ :=
  let dx1 := x1 - x0
  let dx2 := x2 - x1
  let a := -dx2 / (dx1 * (dx1 + dx2))
  let b := (dx2 - dx1) / (dx1 * dx2)
  let c := dx1 / (dx2 * (dx1 + dx2))
  a * y0 + b * y1 + c * y2

/-- `np.gradient(y, x)` with the default `edge_order=1` on an `n`-point
array: one-sided differences at the two boundary samples, the second-order
neighbour formula at interior samples. -/
def npGradient (n : ℕ) (x y : ℕ → ℝ) (i : ℕ) : ℝ :=
  if i = 0 then (y 1 - y 0) / (x 1 - x 0)
  else if i = n - 1 then (y (n - 1) - y (n - 2)) / (x (n - 1) - x (n - 2))
  else gradInterior (x (i - 1)) (x i) (x (i + 1)) (y (i - 1)) (y i) (y (i + 1))

/-- `np.trapz(f, x)` on an `n`-point array: the trapezoidal rule
`Σ (x[i+1]-x[i]) * (f[i+1]+f[i]) / 2`. -/
def npTrapz (n : ℕ) (x f : ℕ → ℝ) : ℝ :=
  ∑ i ∈ Finset.range (n - 1), (x (i + 1) - x i) * (f (i + 1) + f i) / 2

/-- `evaluate_functional(x_pts, y_pts)` from the notebook:
`y_deriv_pts = np.gradient(y_pts, x_pts)`;
`f = y_deriv_pts**2 + y_pts*y_deriv_pts + y_pts**2`;
`return np.trapz(f, x_pts)`. -/
def evaluate_functional (n : ℕ) (x y : ℕ → ℝ) : ℝ :=
  let d := npGradient n x y
  npTrapz n x (fun i => (d i) ^ 2 + y i * d i + (y i) ^ 2)

/-- `x_mapped_pts = (x_pts - x_pts[0]) / (x_pts[-1] - x_pts[0])` from
`make_path`. -/
def x_mapped_pts (i : ℕ) : ℝ := (x_pts i - x_pts 0) / (x_pts (nPts - 1) - x_pts 0)

/-- The `if/elif` chain choosing the base function in `make_path`.
A tag outside the three alternatives leaves the Python local `base`
unassigned (the call `base(x_pts)` then raises); that is `none` here. -/
def resolveBase (s : String) : Option (ℝ → ℝ) :=
  if s = "exact" then some (fun x => y_star x)
  else if s = "guess 1" then some (fun x => Real.sinh (2 * x) / Real.sinh 2)
  else if s = "guess 2" then some (fun x => x ^ 3)
  else none

/-- The `if/elif` chain choosing the deviation function `eta` in
`make_path`; unknown tags leave `eta` unassigned, modelled as `none`. -/
def resolveEta (s : String) : Option (ℝ → ℝ) :=
  if s = "sine" then some (fun x => Real.sin (Real.pi * x))
  else if s = "parabola" then some (fun x => 4 * x * (1 - x))
  else none

/-- The path computed by `make_path`:
`y_new_pts = base(x_pts) + alpha * eta(x_mapped_pts)`. -/
def make_path (alpha : ℝ) (base_function eta_function : String) : Option (ℕ → ℝ) := do
  let base ← resolveBase base_function
  let eta ← resolveEta eta_function
  pure (fun i => base (x_pts i) + alpha * eta (x_mapped_pts i))

/-- The drawn contents of the two matplotlib axes: curves plotted on `ax1`,
horizontal reference lines (`axhline`) on `ax2`, scatter markers on `ax2`. -/
structure Display where
  ax1_curves : List (ℕ → ℝ)
  ax2_baselines : List ℝ
  ax2_points : List (ℝ × ℝ)

/-- Both axes empty (state after `ax1.clear(); ax2.clear()`). -/
def emptyDisplay : Display := ⟨[], [], []⟩

/-- The reference path `y_star(x_pts)` drawn by `setup_figure`. -/
def reference_path : ℕ → ℝ := fun i => y_star (x_pts i)

/-- The value `evaluate_functional(x_pts, y_star(x_pts))` at which
`setup_figure` draws its horizontal reference line. -/
def baseline_value : ℝ := evaluate_functional nPts x_pts reference_path

/-- `setup_figure()`: plots the reference path on `ax1` and the horizontal
baseline on `ax2` (titles, labels and axis limits are cosmetic and carry
no drawn data). -/
def setup_figure (d : Display) : Display :=
  { ax1_curves := d.ax1_curves ++ [reference_path]
    ax2_baselines := d.ax2_baselines ++ [baseline_value]
    ax2_points := d.ax2_points }

/-- The full `make_path` callback: computes `y_new_pts`, plots it on `ax1`
and plots the marker `(alpha, evaluate_functional(x_pts, y_new_pts))` on
`ax2`. -/
def make_path_draw (alpha : ℝ) (b e : String) (d : Display) : Option Display := do
  let y_new ← make_path alpha b e
  pure { d with
          ax1_curves := d.ax1_curves ++ [y_new]
          ax2_points := d.ax2_points ++ [(alpha, evaluate_functional nPts x_pts y_new)] }

/-- `reset_graph(event)`: `ax1.clear(); ax2.clear(); setup_figure()`. -/
def reset_graph (_d : Display) : Display := setup_figure emptyDisplay

/-- The display right after the script's trailing `setup_figure()` call. -/
def initialDisplay : Display := setup_figure emptyDisplay

/-- Display states the interactive session can reach: the initial display,
followed by any number of widget evaluations and reset clicks. -/
inductive Reachable : Display → Prop
  | init : Reachable initialDisplay
  | eval {d d' : Display} (alpha : ℝ) (b e : String) :
      Reachable d → make_path_draw alpha b e d = some d' → Reachable d'
  | reset {d : Display} : Reachable d → Reachable (reset_graph d)

end

/-! ### Basic facts about the session grid -/

section GridLemmas

lemma delta_x_eq : delta_x = 1 / 1000 := by norm_num [delta_x]

lemma nPts_eq : nPts = 1000 := by
  have h : ((1 : ℚ) - 0) / (1 / 1000) = ((1000 : ℕ) : ℚ) := by norm_num
  simp [nPts, arangeCount, h]

lemma x_pts_zero : x_pts 0 = 0 := by simp [x_pts]

lemma x_pts_step (i : ℕ) : x_pts (i + 1) - x_pts i = delta_x := by
  simp only [x_pts]
  push_cast
  ring

lemma x_pts_last : x_pts (nPts - 1) = 999 / 1000 := by
  rw [nPts_eq]
  norm_num [x_pts, delta_x]

lemma x_pts_mono {i j : ℕ} (h : i ≤ j) : x_pts i ≤ x_pts j := by
  have hd : (0 : ℝ) ≤ delta_x := by norm_num [delta_x]
  exact mul_le_mul_of_nonneg_right (Nat.cast_le.2 h) hd

lemma x_pts_bounds {j : ℕ} (hj : j < nPts) :
    x_pts 0 ≤ x_pts j ∧ x_pts j ≤ x_pts (nPts - 1) :=
  ⟨x_pts_mono (Nat.zero_le j), x_pts_mono (by omega)⟩

lemma x_mapped_zero : x_mapped_pts 0 = 0 := by
  simp [x_mapped_pts]

lemma x_mapped_last : x_mapped_pts (nPts - 1) = 1 := by
  have h : x_pts (nPts - 1) - x_pts 0 ≠ 0 := by
    rw [x_pts_last, x_pts_zero]; norm_num
  simp only [x_mapped_pts]
  exact div_self h

end GridLemmas

/-! ### The interior finite-difference scheme -/

section GradientLemmas

lemma gradInterior_closed (x0 x1 x2 y0 y1 y2 : ℝ)
    (hd1 : x1 - x0 ≠ 0) (hd2 : x2 - x1 ≠ 0) (hd3 : x2 - x0 ≠ 0) :
    gradInterior x0 x1 x2 y0 y1 y2 =
      ((x1 - x0) ^ 2 * y2 + ((x2 - x1) ^ 2 - (x1 - x0) ^ 2) * y1 - (x2 - x1) ^ 2 * y0) /
        ((x1 - x0) * (x2 - x1) * (x2 - x0)) := by
  have hsum : x1 - x0 + (x2 - x1) ≠ 0 := by
    have h : x1 - x0 + (x2 - x1) = x2 - x0 := by ring
    rw [h]; exact hd3
  have hDa : (x1 - x0) * (x1 - x0 + (x2 - x1)) ≠ 0 := mul_ne_zero hd1 hsum
  have hDb : (x1 - x0) * (x2 - x1) ≠ 0 := mul_ne_zero hd1 hd2
  have hDc : (x2 - x1) * (x1 - x0 + (x2 - x1)) ≠ 0 := mul_ne_zero hd2 hsum
  have hD : (x1 - x0) * (x2 - x1) * (x2 - x0) ≠ 0 :=
    mul_ne_zero (mul_ne_zero hd1 hd2) hd3
  simp only [gradInterior]
  rw [div_mul_eq_mul_div, div_mul_eq_mul_div, div_mul_eq_mul_div,
    div_add_div _ _ hDa hDb, div_add_div _ _ (mul_ne_zero hDa hDb) hDc,
    div_eq_div_iff (mul_ne_zero (mul_ne_zero hDa hDb) hDc) hD]
  ring

lemma gradInterior_central (x0 x1 x2 y0 y1 y2 h : ℝ)
    (h1 : x1 - x0 = h) (h2 : x2 - x1 = h) (hh : h ≠ 0) :
    gradInterior x0 x1 x2 y0 y1 y2 = (y2 - y0) / (2 * h) := by
  have h3 : x2 - x0 = 2 * h := by
    have := h1; have := h2; linarith
  have h2h : (2 : ℝ) * h ≠ 0 := mul_ne_zero two_ne_zero hh
  rw [gradInterior_closed x0 x1 x2 y0 y1 y2 (h1 ▸ hh) (h2 ▸ hh) (by rw [h3]; exact h2h),
    h1, h2, h3, div_eq_div_iff (mul_ne_zero (mul_ne_zero hh hh) h2h) h2h]
  ring

lemma gradInterior_quadratic (x0 x1 x2 A B C : ℝ)
    (h01 : x0 < x1) (h12 : x1 < x2) :
    gradInterior x0 x1 x2 (A * x0 ^ 2 + B * x0 + C) (A * x1 ^ 2 + B * x1 + C)
      (A * x2 ^ 2 + B * x2 + C) = 2 * A * x1 + B := by
  have hd1 : x1 - x0 ≠ 0 := sub_ne_zero.2 (ne_of_gt h01)
  have hd2 : x2 - x1 ≠ 0 := sub_ne_zero.2 (ne_of_gt h12)
  have hd3 : x2 - x0 ≠ 0 := sub_ne_zero.2 (ne_of_gt (lt_trans h01 h12))
  have hD : (x1 - x0) * (x2 - x1) * (x2 - x0) ≠ 0 :=
    mul_ne_zero (mul_ne_zero hd1 hd2) hd3
  rw [gradInterior_closed _ _ _ _ _ _ hd1 hd2 hd3, div_eq_iff hD]
  ring

lemma npGradient_left (n : ℕ) (x y : ℕ → ℝ) :
    npGradient n x y 0 = (y 1 - y 0) / (x 1 - x 0) := by
  simp [npGradient]

lemma npGradient_right (n : ℕ) (x y : ℕ → ℝ) (hn : 2 ≤ n) :
    npGradient n x y (n - 1) = (y (n - 1) - y (n - 2)) / (x (n - 1) - x (n - 2)) := by
  have h0 : n - 1 ≠ 0 := by omega
  simp [npGradient, h0]

lemma npGradient_interior (n : ℕ) (x y : ℕ → ℝ) (i : ℕ)
    (hi0 : i ≠ 0) (hin : i ≠ n - 1) :
    npGradient n x y i =
      gradInterior (x (i - 1)) (x i) (x (i + 1)) (y (i - 1)) (y i) (y (i + 1)) := by
  simp [npGradient, hi0, hin]

/-- On the session grid the numerical gradient of a constant path vanishes
at every sample. -/
lemma npGradient_session_const (c : ℝ) (i : ℕ) :
    npGradient nPts x_pts (fun _ => c) i = 0 := by
  by_cases hi0 : i = 0
  · simp [npGradient, hi0]
  · by_cases hin : i = nPts - 1
    · simp [npGradient, hi0, hin]
    · rw [npGradient_interior nPts x_pts _ i hi0 hin]
      obtain ⟨j, rfl⟩ : ∃ j, i = j + 1 :=
        ⟨i - 1, (Nat.succ_pred_eq_of_pos (Nat.pos_of_ne_zero hi0)).symm⟩
      have h1 : x_pts (j + 1) - x_pts (j + 1 - 1) = delta_x := by
        simpa using x_pts_step j
      have h2 : x_pts (j + 1 + 1) - x_pts (j + 1) = delta_x := x_pts_step (j + 1)
      rw [gradInterior_central _ _ _ _ _ _ delta_x h1 h2 (by norm_num [delta_x])]
      simp

end GradientLemmas

/-! ### Claim theorems -/

/-- C1: for every grid of at least two points and every same-length path,
`evaluate_functional` computes the pointwise numerical derivative of the
path (one-sided differences at the two boundary samples; at interior
samples the central second-order neighbour scheme, which reduces to
`(y[i+1]-y[i-1])/(2h)` under locally uniform spacing and is exact on
quadratics), forms the integrand `f = y'^2 + y*y' + y^2` pointwise, and
integrates `f` with the trapezoidal rule over the grid, returning that
single real number.  The embedding is a pure function, so the result has
no side effects by construction. -/
theorem evaluate_functional_scheme (n : ℕ) (x y : ℕ → ℝ) (hn : 2 ≤ n) :
    evaluate_functional n x y =
      (∑ i ∈ Finset.range (n - 1), (x (i + 1) - x i) *
        (((npGradient n x y (i + 1)) ^ 2 + y (i + 1) * npGradient n x y (i + 1)
            + (y (i + 1)) ^ 2)
          + ((npGradient n x y i) ^ 2 + y i * npGradient n x y i + (y i) ^ 2)) / 2) ∧
    npGradient n x y 0 = (y 1 - y 0) / (x 1 - x 0) ∧
    npGradient n x y (n - 1) = (y (n - 1) - y (n - 2)) / (x (n - 1) - x (n - 2)) ∧
    (∀ i h, i ≠ 0 → i ≠ n - 1 → x i - x (i - 1) = h → x (i + 1) - x i = h → h ≠ 0 →
      npGradient n x y i = (y (i + 1) - y (i - 1)) / (2 * h)) ∧
    (∀ i A B C, i ≠ 0 → i ≠ n - 1 → x (i - 1) < x i → x i < x (i + 1) →
      y (i - 1) = A * x (i - 1) ^ 2 + B * x (i - 1) + C →
      y i = A * x i ^ 2 + B * x i + C →
      y (i + 1) = A * x (i + 1) ^ 2 + B * x (i + 1) + C →
      npGradient n x y i = 2 * A * x i + B) := by
  refine ⟨rfl, npGradient_left n x y, npGradient_right n x y hn, ?_, ?_⟩
  · intro i h hi0 hin h1 h2 hh
    rw [npGradient_interior n x y i hi0 hin]
    exact gradInterior_central _ _ _ _ _ _ h h1 h2 hh
  · intro i A B C hi0 hin hlt1 hlt2 e0 e1 e2
    rw [npGradient_interior n x y i hi0 hin, e0, e1, e2]
    exact gradInterior_quadratic _ _ _ A B C hlt1 hlt2

/-- Concrete three-point grid used to witness `evaluate_functional_scheme`. -/
def gridW : ℕ → ℝ := fun i => (i : ℝ)

/-- Concrete three-point path used to witness `evaluate_functional_scheme`. -/
def pathW : ℕ → ℝ := fun i => (i : ℝ)

theorem evaluate_functional_scheme_witness :
    2 ≤ 3 ∧
    (evaluate_functional 3 gridW pathW =
      (∑ i ∈ Finset.range (3 - 1), (gridW (i + 1) - gridW i) *
        (((npGradient 3 gridW pathW (i + 1)) ^ 2
            + pathW (i + 1) * npGradient 3 gridW pathW (i + 1) + (pathW (i + 1)) ^ 2)
          + ((npGradient 3 gridW pathW i) ^ 2 + pathW i * npGradient 3 gridW pathW i
            + (pathW i) ^ 2)) / 2) ∧
    npGradient 3 gridW pathW 0 = (pathW 1 - pathW 0) / (gridW 1 - gridW 0) ∧
    npGradient 3 gridW pathW (3 - 1) =
      (pathW (3 - 1) - pathW (3 - 2)) / (gridW (3 - 1) - gridW (3 - 2)) ∧
    (∀ i h, i ≠ 0 → i ≠ 3 - 1 → gridW i - gridW (i - 1) = h →
      gridW (i + 1) - gridW i = h → h ≠ 0 →
      npGradient 3 gridW pathW i = (pathW (i + 1) - pathW (i - 1)) / (2 * h)) ∧
    (∀ i A B C, i ≠ 0 → i ≠ 3 - 1 → gridW (i - 1) < gridW i → gridW i < gridW (i + 1) →
      pathW (i - 1) = A * gridW (i - 1) ^ 2 + B * gridW (i - 1) + C →
      pathW i = A * gridW i ^ 2 + B * gridW i + C →
      pathW (i + 1) = A * gridW (i + 1) ^ 2 + B * gridW (i + 1) + C →
      npGradient 3 gridW pathW i = 2 * A * gridW i + B)) :=
  ⟨by norm_num, evaluate_functional_scheme 3 gridW pathW (by norm_num)⟩

/-- C4: on the session grid, `evaluate_functional` of the constant path
`path[i] = c` is exactly `c^2 * (x_pts[-1] - x_pts[0])`, the squared
constant times the length of the grid interval (which is `999/1000`),
because the numerical gradient of a constant path is exactly zero at
every sample. -/
theorem evaluate_functional_const (c : ℝ) :
    evaluate_functional nPts x_pts (fun _ => c) = c ^ 2 * (x_pts (nPts - 1) - x_pts 0) ∧
    x_pts (nPts - 1) - x_pts 0 = 999 / 1000 := by
  have hgrad := npGradient_session_const c
  have hlen : x_pts (nPts - 1) - x_pts 0 = 999 / 1000 := by
    rw [x_pts_last, x_pts_zero]; norm_num
  refine ⟨?_, hlen⟩
  have hsum : evaluate_functional nPts x_pts (fun _ => c)
      = ∑ _i ∈ Finset.range (nPts - 1), delta_x * c ^ 2 := by
    simp only [evaluate_functional, npTrapz]
    refine Finset.sum_congr rfl fun i _ => ?_
    simp only [hgrad]
    rw [x_pts_step i]
    ring
  rw [hsum, Finset.sum_const, Finset.card_range, hlen, nPts_eq, delta_x_eq,
    nsmul_eq_mul]
  push_cast
  ring

/-- C10: the session grid `np.arange(0., 1., 0.001)` has 1000 points,
starts at `0`, ends at `0.999 = 999/1000`, and excludes the nominal right
endpoint: no grid point equals `1`, and every grid point lies in
`[0, 999/1000]`. -/
theorem x_pts_grid_range (i : ℕ) (hi : i < nPts) :
    nPts = 1000 ∧ x_pts 0 = 0 ∧ x_pts (nPts - 1) = 999 / 1000 ∧
    x_pts i ≠ 1 ∧ 0 ≤ x_pts i ∧ x_pts i ≤ 999 / 1000 := by
  have hle : x_pts i ≤ 999 / 1000 := by
    have h := (x_pts_bounds hi).2
    rwa [x_pts_last] at h
  have hge : 0 ≤ x_pts i := by
    have h := (x_pts_bounds hi).1
    rwa [x_pts_zero] at h
  exact ⟨nPts_eq, x_pts_zero, x_pts_last,
    ne_of_lt (lt_of_le_of_lt hle (by norm_num)), hge, hle⟩

theorem x_pts_grid_range_witness :
    0 < nPts ∧ (nPts = 1000 ∧ x_pts 0 = 0 ∧ x_pts (nPts - 1) = 999 / 1000 ∧
      x_pts 0 ≠ 1 ∧ 0 ≤ x_pts 0 ∧ x_pts 0 ≤ 999 / 1000) :=
  ⟨by rw [nPts_eq]; norm_num, x_pts_grid_range 0 (by rw [nPts_eq]; norm_num)⟩

/-- C2: for every `alpha` and every valid pair of tags, `make_path`
returns the path `base(x_pts) + alpha * eta(normalized grid)` pointwise,
where the normalization `(x - x_pts[0]) / (x_pts[-1] - x_pts[0])` (with
`x_pts[0]` the minimum and `x_pts[-1]` the maximum of the session grid)
is applied only to the argument of the deviation function while the base
function sees the original grid. -/
theorem make_path_formula (alpha : ℝ) (b e : String)
    (hb : b = "exact" ∨ b = "guess 1" ∨ b = "guess 2")
    (he : e = "sine" ∨ e = "parabola") :
    ∃ bf ef, resolveBase b = some bf ∧ resolveEta e = some ef ∧
      make_path alpha b e = some (fun i =>
        bf (x_pts i) + alpha * ef ((x_pts i - x_pts 0) / (x_pts (nPts - 1) - x_pts 0))) ∧
      ∀ j, j < nPts → x_pts 0 ≤ x_pts j ∧ x_pts j ≤ x_pts (nPts - 1) := by
  have hbd : ∀ j, j < nPts → x_pts 0 ≤ x_pts j ∧ x_pts j ≤ x_pts (nPts - 1) :=
    fun j hj => x_pts_bounds hj
  rcases hb with rfl | rfl | rfl <;> rcases he with rfl | rfl <;>
    exact ⟨_, _, rfl, rfl, rfl, hbd⟩

theorem make_path_formula_witness :
    ∃ bf ef, resolveBase "exact" = some bf ∧ resolveEta "sine" = some ef ∧
      make_path 1 "exact" "sine" = some (fun i =>
        bf (x_pts i) + 1 * ef ((x_pts i - x_pts 0) / (x_pts (nPts - 1) - x_pts 0))) ∧
      ∀ j, j < nPts → x_pts 0 ≤ x_pts j ∧ x_pts j ≤ x_pts (nPts - 1) :=
  make_path_formula 1 "exact" "sine" (Or.inl rfl) (Or.inl rfl)

/-- C3: for every `alpha` in `[-1, 1]` and every valid pair of tags, the
path produced by `make_path` agrees with the chosen base function exactly
at the first and at the last grid point, because both deviation functions
vanish at `0` and at `1` of the normalized domain. -/
theorem make_path_endpoints (alpha : ℝ) (ha1 : -1 ≤ alpha) (ha2 : alpha ≤ 1)
    (b e : String)
    (hb : b = "exact" ∨ b = "guess 1" ∨ b = "guess 2")
    (he : e = "sine" ∨ e = "parabola")
    (p : ℕ → ℝ) (hp : make_path alpha b e = some p) :
    ∃ bf, resolveBase b = some bf ∧
      p 0 = bf (x_pts 0) ∧ p (nPts - 1) = bf (x_pts (nPts - 1)) := by
  rcases hb with rfl | rfl | rfl <;> rcases he with rfl | rfl <;>
    (have hfun := Option.some.inj hp) <;> subst hfun <;>
    exact ⟨_, rfl, by simp [x_mapped_zero, Real.sin_pi],
      by simp [x_mapped_last, Real.sin_pi]⟩

theorem make_path_endpoints_witness :
    (-1 : ℝ) ≤ 0 ∧ (0 : ℝ) ≤ 1 ∧
    (∃ bf, resolveBase "exact" = some bf ∧
      (fun i => y_star (x_pts i) + 0 * Real.sin (Real.pi * x_mapped_pts i)) 0 =
        bf (x_pts 0) ∧
      (fun i => y_star (x_pts i) + 0 * Real.sin (Real.pi * x_mapped_pts i)) (nPts - 1) =
        bf (x_pts (nPts - 1))) :=
  ⟨by norm_num, by norm_num,
    make_path_endpoints 0 (by norm_num) (by norm_num) "exact" "sine"
      (Or.inl rfl) (Or.inl rfl)
      (fun i => y_star (x_pts i) + 0 * Real.sin (Real.pi * x_mapped_pts i)) rfl⟩

/-- C5: with base tag `exact` and `alpha = 0`, `make_path` returns exactly
the reference path `y_star(x_pts)` for either deviation selection, and
`evaluate_functional` on that path is the fixed `baseline_value` that the
initial (and reset) display draws as its horizontal reference line. -/
theorem make_path_exact_zero (e : String) (he : e = "sine" ∨ e = "parabola") :
    make_path 0 "exact" e = some reference_path ∧
    evaluate_functional nPts x_pts reference_path = baseline_value ∧
    initialDisplay.ax2_baselines = [baseline_value] := by
  refine ⟨?_, rfl, rfl⟩
  rcases he with rfl | rfl
  · have h : (fun i => y_star (x_pts i) + 0 * Real.sin (Real.pi * x_mapped_pts i))
        = reference_path := by
      funext i; simp [reference_path]
    exact congrArg some h
  · have h : (fun i => y_star (x_pts i) + 0 * (4 * x_mapped_pts i * (1 - x_mapped_pts i)))
        = reference_path := by
      funext i; simp [reference_path]
    exact congrArg some h

theorem make_path_exact_zero_witness :
    make_path 0 "exact" "sine" = some reference_path ∧
    evaluate_functional nPts x_pts reference_path = baseline_value ∧
    initialDisplay.ax2_baselines = [baseline_value] :=
  make_path_exact_zero "sine" (Or.inl rfl)

/-- C8: for every base tag outside the three known alternatives or every
deviation tag outside the two known alternatives, `make_path` fails to
resolve the tag to a function and produces no path. -/
theorem make_path_unknown_tag (alpha : ℝ) (b e : String)
    (h : ¬(b = "exact" ∨ b = "guess 1" ∨ b = "guess 2") ∨
      ¬(e = "sine" ∨ e = "parabola")) :
    make_path alpha b e = none := by
  rcases h with hb | he
  · push_neg at hb
    obtain ⟨h1, h2, h3⟩ := hb
    have hres : resolveBase b = none := by simp [resolveBase, h1, h2, h3]
    simp [make_path, hres]
  · push_neg at he
    obtain ⟨h1, h2⟩ := he
    have hres : resolveEta e = none := by simp [resolveEta, h1, h2]
    cases hb : resolveBase b with
    | none => simp [make_path, hb]
    | some bf => simp [make_path, hb, hres]

theorem make_path_unknown_tag_witness : make_path 0 "cubic" "sine" = none :=
  make_path_unknown_tag 0 "cubic" "sine" (Or.inl (by decide))

/-- C6: the `make_path` callback is pure apart from its additive effect on
the display: whenever it succeeds, the drawn curve and the drawn scatter
marker are a single path `p` and a single point determined by the
arguments alone, identical across any two display states; the baselines
are untouched and the existing artifacts are only appended to.  In
particular two calls with identical arguments produce identical output. -/
theorem make_path_draw_frame (alpha : ℝ) (b e : String) (d₁ d₂ r₁ r₂ : Display)
    (h₁ : make_path_draw alpha b e d₁ = some r₁)
    (h₂ : make_path_draw alpha b e d₂ = some r₂) :
    ∃ p, make_path alpha b e = some p ∧
      r₁ = ⟨d₁.ax1_curves ++ [p], d₁.ax2_baselines,
            d₁.ax2_points ++ [(alpha, evaluate_functional nPts x_pts p)]⟩ ∧
      r₂ = ⟨d₂.ax1_curves ++ [p], d₂.ax2_baselines,
            d₂.ax2_points ++ [(alpha, evaluate_functional nPts x_pts p)]⟩ := by
  cases hmp : make_path alpha b e with
  | none =>
    simp [make_path_draw, hmp] at h₁
  | some p =>
    simp only [make_path_draw, hmp, Option.bind_eq_bind, Option.some_bind,
      Option.pure_def, Option.some.injEq] at h₁ h₂
    exact ⟨p, rfl, h₁.symm, h₂.symm⟩

noncomputable section

/-- The path `make_path 0 "exact" "sine"` computes, used by the witness of
`make_path_draw_frame`. -/
def pathW0 : ℕ → ℝ := fun i => y_star (x_pts i) + 0 * Real.sin (Real.pi * x_mapped_pts i)

/-- The display `make_path_draw 0 "exact" "sine"` produces from the empty
display, used by the witness of `make_path_draw_frame`. -/
def displayW : Display := ⟨[pathW0], [], [(0, evaluate_functional nPts x_pts pathW0)]⟩

end

theorem make_path_draw_frame_witness :
    ∃ p, make_path 0 "exact" "sine" = some p ∧
      displayW = ⟨emptyDisplay.ax1_curves ++ [p], emptyDisplay.ax2_baselines,
            emptyDisplay.ax2_points ++ [(0, evaluate_functional nPts x_pts p)]⟩ ∧
      displayW = ⟨emptyDisplay.ax1_curves ++ [p], emptyDisplay.ax2_baselines,
            emptyDisplay.ax2_points ++ [(0, evaluate_functional nPts x_pts p)]⟩ :=
  make_path_draw_frame 0 "exact" "sine" emptyDisplay emptyDisplay displayW displayW rfl rfl

/-- C7: from every reachable display state, no matter how many evaluations
preceded it, `reset_graph` clears both panels and leaves the display with
exactly the initial contents: the reference curve on the overlay panel,
the horizontal baseline at the functional's value on the reference path
on the scatter panel, and nothing else. -/
theorem reset_restores_initial (d : Display) (h : Reachable d) :
    reset_graph d = initialDisplay ∧
    initialDisplay.ax1_curves = [reference_path] ∧
    initialDisplay.ax2_baselines = [baseline_value] ∧
    initialDisplay.ax2_points = ([] : List (ℝ × ℝ)) :=
  ⟨rfl, rfl, rfl, rfl⟩

theorem reset_restores_initial_witness :
    reset_graph initialDisplay = initialDisplay ∧
    initialDisplay.ax1_curves = [reference_path] ∧
    initialDisplay.ax2_baselines = [baseline_value] ∧
    initialDisplay.ax2_points = ([] : List (ℝ × ℝ)) :=
  reset_restores_initial initialDisplay Reachable.init
